import Mathlib

/-!
Herald wearable: application orchestration layer (`src/main.cpp`).

A shallow embedding of `herald_entry`, `main` and `_exit`.  Every call the
firmware makes on an external collaborator (Zephyr kernel, GPIO, the Herald
sensor array, the CC3xx entropy source, the logger) is recorded as an `Event`;
a function of the source becomes a function from its environment inputs to the
list of events it performs, in program order.  The two `while (1)` loops are
observed on a finite number of passes.

Conventions
* `int` values are `Int`; `iter++` at `INT_MAX` is undefined behaviour in C++
  and is modelled as `none`.
* `/` and `%` on `int` are `Int.tdiv` and `Int.tmod` (truncation toward zero).
* `uint8_t` values are `Nat` reduced `% 256`, `uint64_t` values `% 2 ^ 64`.
* `Date` is the number of seconds read from the clock, `now - last` is the
  difference of the two readings.
-/

namespace Herald

/-! ## Events -/

/-- Reset kinds accepted by `sys_reboot`. -/
inductive RebootMode where
  | warm
  | cold
  deriving DecidableEq, Repr

/-- Modelled from the spec: `herald::payload::simple::SecretKey` (a
`herald::data::Data`) is declared in `herald.h`, which is not part of the
sources.  The spec (section 3, IdentityKeyMaterial) describes a mutable
fixed-capacity secret buffer; `bytes` holds the whole buffer (its length is the
capacity) and `used` counts the bytes written so far. -/
structure SecretKey where
  bytes : List Nat
  used : Nat
  deriving DecidableEq, Repr

/-- One observable action of the firmware. -/
inductive Event where
  | log (msg : String)
  | logNum (msg : String) (arg : Int)
  | printk (msg : String)
  | printkNum (msg : String) (arg : Int)
  | kSleep (ms : Int)
  | makeAppDelegate
  | makeContext
  | hwinfoGetDeviceId
  | entropyGet (buflen : Nat)
  | keySubdata (offset length : Nat) (result : Option (List Nat))
  | makeFixedSupplier (countryCode stateCode clientId : Nat)
  | makeSimpleSupplier (countryCode stateCode : Nat) (sk : SecretKey)
  | setAdvertisingEnabled (enabled : Bool)
  | saConstruct
  | saAdd
  | saStart
  | saIteration (elapsed : Int)
  | threadNameSet (name : String)
  | deviceGetBinding
  | gpioPinConfigure
  | cc3xxInit
  | threadCreate
  | gpioPinSet (level : Nat)
  | threadAnalyzerPrint
  | sysReboot (mode : RebootMode)
  deriving DecidableEq, Repr

/-! ## The worker scheduler loop (`main.cpp` lines 307-324) -/

/-- Largest value of a 32-bit `int`. -/
def INT_MAX : Int := 2147483647

/-- The loop variables `iter` and `last`. -/
structure LoopState where
  iter : Int
  last : Int
  deriving DecidableEq, Repr

/-- Events of one pass through the body of `while (1)` (lines 311-320):
sleep, the guarded `sa->iteration(now - last)`, the guarded liveness log. -/
def loopBody (delay : Int) (s : LoopState) (now : Int) : List Event :=
  [Event.kSleep delay]
    ++ (if s.iter > 40 then [Event.saIteration (now - s.last)] else [])
    ++ (if 0 = Int.tmod s.iter (Int.tdiv 5000 delay)
          then [Event.logNum "herald thread still running. Iteration: %d" s.iter]
          else [])

/-- Lines 322-323: `last = now; iter++;`.  Incrementing `INT_MAX` is undefined
behaviour and yields `none`. -/
def loopStep (s : LoopState) (now : Int) : Option LoopState :=
  if s.iter < INT_MAX then some { iter := s.iter + 1, last := now } else none

/-- The scheduler loop observed on the passes whose clock readings are `nows`:
the events of each pass, in order. -/
def schedulerLoop (delay : Int) : LoopState → List Int → Option (List (List Event))
  | _, [] => some []
  | s, now :: rest =>
    match loopStep s now with
    | none => none
    | some s' =>
      match schedulerLoop delay s' rest with
      | none => none
      | some tr => some (loopBody delay s now :: tr)

/-- Number of `sa->iteration()` calls among some events. -/
def iterationCalls (evs : List Event) : Nat :=
  (evs.filter fun e => match e with
    | Event.saIteration _ => true
    | _ => false).length

/-- Whether the liveness log line of line 319 is among some events. -/
def livenessLogged (evs : List Event) : Bool :=
  evs.any fun e => match e with
    | Event.logNum msg _ => msg == "herald thread still running. Iteration: %d"
    | _ => false

/-- Clock readings of 41 consecutive passes, 250 clock units apart. -/
def clock41 : List Int := (List.range 41).map fun i => 250 * ((i : Int) + 1)

/-- Clock readings 10, 11, ..., 52 of 43 consecutive passes. -/
def clock43 : List Int := (List.range 43).map fun (k : Nat) => (k : Int) + 10

/-! ## Key material (`herald::data::Data`, not part of the sources) -/

/-- Modelled from the spec: the constructor `SecretKey(std::byte, count)` of
`herald.h` (missing): a buffer of `count` bytes, all equal to `fill`. -/
def SecretKey.filled (fill count : Nat) : SecretKey :=
  { bytes := List.replicate count fill, used := count }

/-- Modelled from the spec: `Data::clear()` of `herald.h` (missing), spec
section 3: "clear() (zero all bytes)".  The buffer keeps its capacity and is
empty for writing again. -/
def SecretKey.clear (k : SecretKey) : SecretKey :=
  { bytes := List.replicate k.bytes.length 0, used := 0 }

/-- Modelled from the spec: `Data::append(buffer, offset, length)` of
`herald.h` (missing), spec section 3: "append(buffer, offset, length) (bounded
write)" with the invariant "offset + length never exceeds capacity; violating
this is a programming error".  Writes `buffer[offset .. offset + length)` after
the bytes written so far; `none` is the programming error. -/
def SecretKey.append (k : SecretKey) (buffer : List Nat) (offset length : Nat) :
    Option SecretKey :=
  if offset + length ≤ k.bytes.length ∧ offset + length ≤ buffer.length
      ∧ k.used + length ≤ k.bytes.length then
    some { bytes := k.bytes.take k.used ++ (buffer.drop offset).take length
                      ++ k.bytes.drop (k.used + length),
           used := k.used + length }
  else none

/-- Modelled from the spec: `Data::subdata(offset, length)` of `herald.h`
(missing), spec section 3: "subdata(offset, length) (bounded read returning a
copy)" under the same invariant; `none` is a bounds violation. -/
def SecretKey.subdata (k : SecretKey) (offset length : Nat) : Option (List Nat) :=
  if offset + length ≤ k.bytes.length then some ((k.bytes.drop offset).take length)
  else none

/-- The pre-defined fallback key of line 241: `sk(std::byte(0x00), 2048)`. -/
def fallbackKey : SecretKey := SecretKey.filled 0 2048

/-! ## Production identity path (lines 233-270) -/

/-- What `nrf_cc3xx_platform_entropy_get(buf, buflen, &olen)` leaves behind:
its return value, the byte count it stored in `olen`, and the contents of the
`buflen`-byte array `buf` after the call. -/
structure EntropyResult where
  status : Int
  olen : Nat
  buf : List Nat
  deriving DecidableEq, Repr

/-- Lines 241-253: the secret key after the entropy request.  Only `success`
is tested; `olen` is not read. -/
def provisionKey (r : EntropyResult) : Option SecretKey :=
  let sk := fallbackKey
  let buflen := 2048
  if 0 = r.status then sk.clear.append r.buf 0 buflen else some sk

/-- Lines 256-259: `for (int i = 0; i < 2048; i += 64)` reading
`sk.subdata(i, 64)`, started at loop variable `i`. -/
def verifyKey (sk : SecretKey) (i : Nat) : List Event :=
  if i < 2048 then
    Event.keySubdata i 64 (sk.subdata i 64)
      :: Event.logNum "Got 64 bytes from secret key from %d" i
      :: verifyKey sk (i + 64)
  else []
termination_by 2048 - i

/-- Lines 234-270: events of the production identity path. -/
def productionIdentity (r : EntropyResult) : Option (List Event) :=
  match provisionKey r with
  | none => none
  | some sk =>
    some ([Event.log "Before simple", Event.kSleep 2000, Event.entropyGet 2048,
           Event.log (if 0 = r.status
             then "Have applied CC3xx generated data to secret key"
             else "Could not generate 2048 bytes of randomness required for SimplePayload Secret Key. Falling back to fixed generic secret key.")]
          ++ verifyKey sk 0
          ++ [Event.log "About to create Payload data supplier", Event.kSleep 2000,
              Event.makeSimpleSupplier 826 0 sk])

/-! ## Test identity path (lines 206-230) -/

/-- Lines 211-215: the status of the hardware identifier read; without
`CMAKE_C_FLAGS_DEBUG` no read is made and the status is `-1`.  Line 212 is
written without its closing semicolon; the assignment it states is the one
modelled. -/
def hwInfoAvailable (cmakeDebug : Bool) (hwinfoStatus : Int) : Int :=
  if cmakeDebug then hwinfoStatus else -1

/-- Lines 207-222: `clientId`; `*uniqueId` is the first `uint8_t` of the
array, widened to `uint64_t`. -/
def testClientId (avail : Int) (uniqueId : Fin 8 → Nat) : Nat :=
  if avail > 0 then (uniqueId 0 % 256) % 2 ^ 64 else 1234567890

/-- Lines 206-230: events of the test identity path. -/
def testIdentity (cmakeDebug : Bool) (hwinfoStatus : Int) (uniqueId : Fin 8 → Nat) :
    List Event :=
  let countryCode := 826
  let stateCode := 0
  let clientId := testClientId (hwInfoAvailable cmakeDebug hwinfoStatus) uniqueId
  (if cmakeDebug then [Event.hwinfoGetDeviceId] else [])
    ++ [Event.logNum "Final clientID: %lld" clientId,
        Event.makeFixedSupplier countryCode stateCode clientId]

/-! ## `herald_entry` (lines 184-325) -/

/-- Build-time switches read by the preprocessor. -/
structure BuildConfig where
  useTestPayload : Bool
  cmakeDebug : Bool
  useCC3xx : Bool
  heraldDebug : Bool
  deriving DecidableEq, Repr

/-- Everything `herald_entry` reads from its environment: the hardware
identifier read, the entropy request, the clock reading of `Date last;` and
the clock readings `Date now;` of the observed passes of the loop. -/
structure WorkerEnv where
  hwinfoStatus : Int
  uniqueId : Fin 8 → Nat
  entropy : EntropyResult
  start : Int
  nows : List Int

/-- Events of `herald_entry`, in program order; `none` when the execution has
no defined behaviour. -/
def herald_entry (cfg : BuildConfig) (env : WorkerEnv) : Option (List Event) :=
  let identity :=
    if cfg.useTestPayload then
      some (testIdentity cfg.cmakeDebug env.hwinfoStatus env.uniqueId)
    else productionIdentity env.entropy
  let delay := 250
  match identity with
  | none => none
  | some ident =>
    match schedulerLoop delay { iter := 0, last := env.start } env.nows with
    | none => none
    | some passes =>
      some ([Event.log "Herald entry", Event.kSleep 1000, Event.makeAppDelegate,
             Event.makeContext]
            ++ ident
            ++ [Event.log "Payload data supplier created!", Event.kSleep 1000,
                Event.setAdvertisingEnabled true,
                Event.log "Creating sensor array", Event.kSleep 1000,
                Event.saConstruct, Event.saAdd,
                Event.log "Starting sensor array!", Event.kSleep 2000,
                Event.saStart]
            ++ passes.flatten)

/-! ## `cc3xx_init`, `main` and `_exit` (lines 149-181, 327-386) -/

/-- Lines 161-179: the example entropy request made at boot. -/
def cc3xx_init (initStatus : Int) (r : EntropyResult) : List Event :=
  let buflen := 16
  [Event.cc3xxInit]
    ++ (if 0 ≠ initStatus then
          [Event.log "Could not initialise CC3xx cryptocell - Check prj.conf to ensure hardware is enabled"]
        else
          [Event.entropyGet buflen]
            ++ (if 0 ≠ r.status then [Event.log "Secure RNG failed"]
                else if r.olen ≠ buflen then
                  [Event.log "Didn't generate enough randomness for output"]
                else [Event.log "nRF CC3xx cryptocell successfully initialised and tested"]))

/-- Lines 369-378: `passes` passes of the LED loop, starting with `led_is_on`
equal to `led`. -/
def heartbeat (cfg : BuildConfig) : Bool → Nat → List Event
  | _, 0 => []
  | led, n + 1 =>
    [Event.kSleep 100, Event.gpioPinSet (if led then 1 else 0)]
      ++ (if cfg.heraldDebug then [Event.threadAnalyzerPrint] else [])
      ++ heartbeat cfg (!led) n

/-- What `main` reads from its environment: whether `device_get_binding`
returned a device, the return value of `gpio_pin_configure`, the outcome of the
boot-time entropy example, and how many passes of the LED loop are observed. -/
structure MainEnv where
  devBound : Bool
  ret : Int
  initStatus : Int
  bootEntropy : EntropyResult
  passes : Nat

/-- Events of `main`, in program order (lines 327-379). -/
def main (cfg : BuildConfig) (env : MainEnv) : List Event :=
  [Event.threadNameSet "MAIN", Event.deviceGetBinding]
    ++ (if !env.devBound then []
        else
          [Event.gpioPinConfigure]
            ++ (if env.ret < 0 then []
                else
                  [Event.log "--------------------------------", Event.log "APP START",
                   Event.log "--------------------------------"]
                    ++ (if cfg.useCC3xx then cc3xx_init env.initStatus env.bootEntropy
                        else [])
                    ++ [Event.log "Starting herald with stack size %d",
                        Event.threadCreate, Event.threadNameSet "HERALD"]
                    ++ heartbeat cfg true env.passes))

/-- Events of `_exit(status)` (lines 381-386). -/
def _exit (status : Int) : List Event :=
  [Event.printkNum "ERR: exit! status:%d" status,
   Event.printk "********* Rebooting system *********",
   Event.sysReboot RebootMode.warm]

/-! ## Observations on event lists -/

/-- The calls made on the sensor array `sa` (construction included). -/
def saCalls (evs : List Event) : List Event :=
  evs.filter fun e => match e with
    | Event.saConstruct => true
    | Event.saAdd => true
    | Event.saStart => true
    | Event.saIteration _ => true
    | _ => false

/-- The constructions of a payload data supplier. -/
def supplierCtors (evs : List Event) : List Event :=
  evs.filter fun e => match e with
    | Event.makeFixedSupplier _ _ _ => true
    | Event.makeSimpleSupplier _ _ _ => true
    | _ => false

/-- The `subdata` reads: offset, length and what was read. -/
def keyReads (evs : List Event) : List (Nat × Nat × Option (List Nat)) :=
  evs.filterMap fun e => match e with
    | Event.keySubdata offset length result => some (offset, length, result)
    | _ => none

/-- Number of `k_thread_create` calls. -/
def threadCreateCalls (evs : List Event) : Nat :=
  (evs.filter fun e => match e with
    | Event.threadCreate => true
    | _ => false).length

/-- Number of LED updates, one per pass of the heartbeat loop. -/
def ledUpdates (evs : List Event) : Nat :=
  (evs.filter fun e => match e with
    | Event.gpioPinSet _ => true
    | _ => false).length

/-- Number of `sys_reboot` calls. -/
def rebootCalls (evs : List Event) : Nat :=
  (evs.filter fun e => match e with
    | Event.sysReboot _ => true
    | _ => false).length

/-- A short read: status 0, only 8 of the requested bytes written (0xA5 each),
the rest of the buffer left as it was (here zero). -/
def shortRead : EntropyResult :=
  { status := 0, olen := 8, buf := List.replicate 8 165 ++ List.replicate 2040 0 }

/-- A hardware identifier whose first byte is 0x2A. -/
def sampleUniqueId : Fin 8 → Nat := fun j => if j = 0 then 42 else 200 + j.val

/-- An environment of the worker thread: identifier read succeeded with 8
bytes, full entropy read of 2048 bytes of 7, and 43 observed passes. -/
def sampleWorkerEnv : WorkerEnv :=
  { hwinfoStatus := 8, uniqueId := sampleUniqueId,
    entropy := { status := 0, olen := 2048, buf := List.replicate 2048 7 },
    start := 3, nows := clock43 }

/-! ## Lemmas on the scheduler loop -/

theorem schedulerLoop_defined (delay : Int) (nows : List Int) :
    ∀ s : LoopState, s.iter + nows.length ≤ INT_MAX →
      ∃ tr, schedulerLoop delay s nows = some tr ∧ tr.length = nows.length := by
  induction nows with
  | nil => intro s _; exact ⟨[], rfl, rfl⟩
  | cons now rest ih =>
    intro s h
    have hlt : s.iter < INT_MAX := by
      simp only [List.length_cons, Nat.cast_add, Nat.cast_one] at h
      omega
    have hs : loopStep s now = some { iter := s.iter + 1, last := now } := by
      simp [loopStep, hlt]
    have h' : (s.iter + 1) + (rest.length : Int) ≤ INT_MAX := by
      simp only [List.length_cons, Nat.cast_add, Nat.cast_one] at h
      omega
    obtain ⟨tr, htr, hlen⟩ := ih { iter := s.iter + 1, last := now } h'
    refine ⟨loopBody delay s now :: tr, ?_, by simp [hlen]⟩
    simp [schedulerLoop, hs, htr]

theorem schedulerLoop_pass (delay : Int) (nows : List Int) :
    ∀ (s : LoopState) (tr : List (List Event)) (i : Nat) (evs : List Event),
      schedulerLoop delay s nows = some tr → tr[i]? = some evs →
      ∃ now prev : Int, nows[i]? = some now ∧ (s.last :: nows)[i]? = some prev ∧
        evs = loopBody delay { iter := s.iter + i, last := prev } now := by
  induction nows with
  | nil =>
    intro s tr i evs h hi
    simp [schedulerLoop] at h
    subst h
    simp at hi
  | cons now rest ih =>
    intro s tr i evs h hi
    unfold schedulerLoop at h
    cases hs : loopStep s now with
    | none => simp [hs] at h
    | some s' =>
      cases hr : schedulerLoop delay s' rest with
      | none => simp [hs, hr] at h
      | some tr' =>
        simp [hs, hr] at h
        subst h
        have hs' : s' = { iter := s.iter + 1, last := now } := by
          unfold loopStep at hs
          split at hs
          · exact (Option.some.inj hs).symm
          · cases hs
        cases i with
        | zero =>
          simp at hi
          subst hi
          exact ⟨now, s.last, by simp, by simp, by simp⟩
        | succ j =>
          simp at hi
          obtain ⟨now', prev, h1, h2, h3⟩ := ih s' tr' j evs hr hi
          refine ⟨now', prev, by simpa using h1, ?_, ?_⟩
          · simpa [hs'] using h2
          · rw [h3, hs']
            simp only [Nat.cast_add, Nat.cast_one]
            congr 2
            omega


theorem iterationCalls_loopBody (delay : Int) (s : LoopState) (now : Int) :
    iterationCalls (loopBody delay s now) = if s.iter > 40 then 1 else 0 := by
  unfold loopBody iterationCalls
  by_cases h1 : s.iter > 40 <;> by_cases h2 : 0 = Int.tmod s.iter (Int.tdiv 5000 delay) <;>
    simp [h1, h2]

theorem livenessLogged_loopBody (s : LoopState) (now : Int) :
    livenessLogged (loopBody 250 s now) = true ↔ Int.tmod s.iter 20 = 0 := by
  have h20 : Int.tdiv 5000 250 = 20 := by decide
  unfold loopBody livenessLogged
  rw [h20]
  by_cases h1 : s.iter > 40 <;> by_cases h2 : 0 = Int.tmod s.iter 20 <;>
    simp [h1, h2] <;> omega

theorem saIteration_mem_loopBody (delay : Int) (s : LoopState) (now e : Int)
    (h : Event.saIteration e ∈ loopBody delay s now) : s.iter > 40 ∧ e = now - s.last := by
  unfold loopBody at h
  by_cases h1 : s.iter > 40 <;> by_cases h2 : 0 = Int.tmod s.iter (Int.tdiv 5000 delay) <;>
    simp [h1, h2] at h <;> exact ⟨h1, h⟩

theorem tmod_natCast_20 (i : Nat) : Int.tmod (i : Int) 20 = 0 ↔ i % 20 = 0 := by
  have : Int.tmod (i : Int) 20 = ((i % 20 : Nat) : Int) := by
    simp [Int.tmod]
  omega

theorem chain_prev_le (nows : List Int) :
    ∀ (start : Int) (i : Nat) (now prev : Int), List.Chain (· ≤ ·) start nows →
      nows[i]? = some now → (start :: nows)[i]? = some prev → prev ≤ now := by
  induction nows with
  | nil => intro start i now prev _ h; simp at h
  | cons a rest ih =>
    intro start i now prev hc h1 h2
    rw [List.chain_cons] at hc
    cases i with
    | zero =>
      simp at h1 h2
      omega
    | succ j =>
      simp at h1 h2
      exact ih a j now prev hc.2 h1 (by simpa using h2)

/-! ## Claims on the scheduler loop -/

/-- C1 (as stated, refuted): taking the threshold to be 40, the pass whose
counter equals 40 would call `iteration()` once.  Running the first 41 passes
(counters 0 to 40) performs no `iteration()` call on any of them, the pass with
counter 40 included. -/
theorem C1_counter_40_not_called :
    (schedulerLoop 250 { iter := 0, last := 0 } clock41).map (List.map iterationCalls)
      = some (List.replicate 41 0) := by
  decide

/-- C1 (amended): on every pass whose counter is at most 40, `iteration()` is
not called, and on every pass whose counter is above 40 it is called exactly
once.  The counter of pass `i` is `i`; the run is defined as long as the number
of passes fits an `int`. -/
theorem C1_iteration_called_iff_above_40 (start : Int) (nows : List Int)
    (hlen : (nows.length : Int) ≤ INT_MAX) :
    ∃ tr, schedulerLoop 250 { iter := 0, last := start } nows = some tr ∧
      tr.length = nows.length ∧
      ∀ (i : Nat) (evs : List Event), tr[i]? = some evs →
        (i ≤ 40 → iterationCalls evs = 0) ∧ (40 < i → iterationCalls evs = 1) := by
  obtain ⟨tr, htr, hl⟩ := schedulerLoop_defined 250 nows { iter := 0, last := start }
    (by simpa using hlen)
  refine ⟨tr, htr, hl, ?_⟩
  intro i evs hi
  obtain ⟨now, prev, _, _, hevs⟩ := schedulerLoop_pass 250 nows _ tr i evs htr hi
  subst hevs
  rw [iterationCalls_loopBody]
  dsimp only
  constructor
  · intro h
    split <;> omega
  · intro h
    split <;> omega

/-- Witness of C1 (amended): 42 passes, the last one with counter 41. -/
theorem C1_iteration_called_iff_above_40_witness :
    ∃ tr, schedulerLoop 250 { iter := 0, last := 7 } (List.replicate 42 9) = some tr ∧
      tr.length = (List.replicate 42 (9 : Int)).length ∧
      ∀ (i : Nat) (evs : List Event), tr[i]? = some evs →
        (i ≤ 40 → iterationCalls evs = 0) ∧ (40 < i → iterationCalls evs = 1) :=
  C1_iteration_called_iff_above_40 7 (List.replicate 42 9) (by decide)

/-- C2: for clock readings that never decrease and start no earlier than the
initial `last`, every value passed to `iteration()` on pass `i` is the reading
of pass `i` minus the reading of pass `i - 1` (the initial `last` for pass 0),
and is therefore non-negative. -/
theorem C2_elapsed_is_difference_and_nonneg (start : Int) (nows : List Int)
    (hmono : List.Chain (· ≤ ·) start nows) (hlen : (nows.length : Int) ≤ INT_MAX) :
    ∃ tr, schedulerLoop 250 { iter := 0, last := start } nows = some tr ∧
      tr.length = nows.length ∧
      ∀ (i : Nat) (evs : List Event) (e : Int), tr[i]? = some evs →
        Event.saIteration e ∈ evs →
        ∃ now prev : Int, nows[i]? = some now ∧ (start :: nows)[i]? = some prev ∧
          e = now - prev ∧ 0 ≤ e := by
  obtain ⟨tr, htr, hl⟩ := schedulerLoop_defined 250 nows { iter := 0, last := start }
    (by simpa using hlen)
  refine ⟨tr, htr, hl, ?_⟩
  intro i evs e hi he
  obtain ⟨now, prev, h1, h2, hevs⟩ := schedulerLoop_pass 250 nows _ tr i evs htr hi
  subst hevs
  obtain ⟨_, hval⟩ := saIteration_mem_loopBody 250 _ now e he
  have hle := chain_prev_le nows start i now prev hmono h1 h2
  refine ⟨now, prev, h1, h2, hval, ?_⟩
  rw [hval]
  simp only
  omega

/-- Witness of C2: 43 passes with readings 10, 11, ..., 52 after a start at 3. -/
theorem C2_elapsed_is_difference_and_nonneg_witness :
    ∃ tr, schedulerLoop 250 { iter := 0, last := 3 } clock43 = some tr ∧
      tr.length = clock43.length ∧
      ∀ (i : Nat) (evs : List Event) (e : Int), tr[i]? = some evs →
        Event.saIteration e ∈ evs →
        ∃ now prev : Int, clock43[i]? = some now ∧ (3 :: clock43)[i]? = some prev ∧
          e = now - prev ∧ 0 ≤ e :=
  C2_elapsed_is_difference_and_nonneg 3 clock43
    (by simp [clock43, List.range, List.range.loop]) (by decide)

/-- C9: with `delay = 250` the liveness log is emitted on pass `i` exactly when
`i` is a multiple of `5000 / 250 = 20`; on passes 0, 20 and 40 it is emitted
although `iteration()` is not called there. -/
theorem C9_liveness_log_every_20 (start : Int) (nows : List Int)
    (hlen : (nows.length : Int) ≤ INT_MAX) :
    Int.tdiv 5000 250 = 20 ∧
    ∃ tr, schedulerLoop 250 { iter := 0, last := start } nows = some tr ∧
      tr.length = nows.length ∧
      ∀ (i : Nat) (evs : List Event), tr[i]? = some evs →
        (livenessLogged evs = true ↔ i % 20 = 0) ∧
        (i = 0 ∨ i = 20 ∨ i = 40 → livenessLogged evs = true ∧ iterationCalls evs = 0) := by
  refine ⟨by decide, ?_⟩
  obtain ⟨tr, htr, hl⟩ := schedulerLoop_defined 250 nows { iter := 0, last := start }
    (by simpa using hlen)
  refine ⟨tr, htr, hl, ?_⟩
  intro i evs hi
  obtain ⟨now, prev, _, _, hevs⟩ := schedulerLoop_pass 250 nows _ tr i evs htr hi
  subst hevs
  have hiff : livenessLogged (loopBody 250 { iter := 0 + (i : Int), last := prev } now) = true
      ↔ i % 20 = 0 := by
    rw [livenessLogged_loopBody]
    simp only [zero_add]
    exact tmod_natCast_20 i
  refine ⟨hiff, ?_⟩
  intro h
  constructor
  · rw [hiff]; omega
  · rw [iterationCalls_loopBody]
    dsimp only
    split <;> omega

/-- Witness of C9: 45 passes. -/
theorem C9_liveness_log_every_20_witness :
    Int.tdiv 5000 250 = 20 ∧
    ∃ tr, schedulerLoop 250 { iter := 0, last := 0 } (List.replicate 45 1) = some tr ∧
      tr.length = (List.replicate 45 (1 : Int)).length ∧
      ∀ (i : Nat) (evs : List Event), tr[i]? = some evs →
        (livenessLogged evs = true ↔ i % 20 = 0) ∧
        (i = 0 ∨ i = 20 ∨ i = 40 → livenessLogged evs = true ∧ iterationCalls evs = 0) :=
  C9_liveness_log_every_20 0 (List.replicate 45 1) (by decide)


/-! ## Claims and lemmas on `_exit` and `main` -/

/-- C5: for every exit status, `_exit(status)` calls `sys_reboot` exactly once,
with the warm-reset mode `SYS_REBOOT_WARM`, and that call is its last action. -/
theorem C5_exit_reboots_once_warm (status : Int) :
    rebootCalls (_exit status) = 1 ∧
    ∃ before, _exit status = before ++ [Event.sysReboot RebootMode.warm] ∧
      rebootCalls before = 0 := by
  refine ⟨by simp [_exit, rebootCalls], ?_⟩
  exact ⟨[Event.printkNum "ERR: exit! status:%d" status,
    Event.printk "********* Rebooting system *********"], rfl, by simp [rebootCalls]⟩

theorem threadCreateCalls_heartbeat (cfg : BuildConfig) (n : Nat) :
    ∀ led, threadCreateCalls (heartbeat cfg led n) = 0 := by
  induction n with
  | zero => intro led; simp [heartbeat, threadCreateCalls]
  | succ n ih =>
    intro led
    have := ih (!led)
    unfold threadCreateCalls at this ⊢
    cases hd : cfg.heraldDebug <;> simp [heartbeat, hd, List.filter_cons, this]

theorem ledUpdates_heartbeat (cfg : BuildConfig) (n : Nat) :
    ∀ led, ledUpdates (heartbeat cfg led n) = n := by
  induction n with
  | zero => intro led; simp [heartbeat, ledUpdates]
  | succ n ih =>
    intro led
    have := ih (!led)
    unfold ledUpdates at this ⊢
    cases hd : cfg.heraldDebug <;> simp [heartbeat, hd, List.filter_cons, this]

theorem cc3xx_init_quiet (initStatus : Int) (r : EntropyResult) :
    threadCreateCalls (cc3xx_init initStatus r) = 0 ∧ ledUpdates (cc3xx_init initStatus r) = 0 := by
  unfold cc3xx_init threadCreateCalls ledUpdates
  by_cases h1 : 0 ≠ initStatus <;> by_cases h2 : 0 ≠ r.status <;> by_cases h3 : r.olen ≠ 16 <;>
    simp [h1, h2, h3, List.filter_cons]


theorem loopBody_events (delay : Int) (s : LoopState) (now : Int) (e : Event)
    (h : e ∈ loopBody delay s now) :
    e = Event.kSleep delay ∨ (∃ x, e = Event.saIteration x) ∨ (∃ m n, e = Event.logNum m n) := by
  unfold loopBody at h
  by_cases h1 : s.iter > 40 <;> by_cases h2 : 0 = Int.tmod s.iter (Int.tdiv 5000 delay) <;>
    simp [h1, h2] at h <;> aesop

theorem schedulerLoop_events (delay : Int) (nows : List Int) :
    ∀ (s : LoopState) (tr : List (List Event)), schedulerLoop delay s nows = some tr →
      ∀ e ∈ tr.flatten,
        e = Event.kSleep delay ∨ (∃ x, e = Event.saIteration x) ∨
          (∃ m n, e = Event.logNum m n) := by
  intro s tr h e he
  obtain ⟨evs, hevs, hmem⟩ := List.mem_flatten.mp he
  obtain ⟨i, hi⟩ := List.getElem?_of_mem hevs
  obtain ⟨now, prev, _, _, hb⟩ := schedulerLoop_pass delay nows s tr i evs h hi
  subst hb
  exact loopBody_events delay _ now e hmem

theorem verifyKey_events (sk : SecretKey) (i : Nat) :
    ∀ e ∈ verifyKey sk i,
      (∃ a b c, e = Event.keySubdata a b c) ∨ (∃ m n, e = Event.logNum m n) := by
  induction i using verifyKey.induct sk with
  | case1 i hlt ih =>
    intro e he
    rw [verifyKey, if_pos hlt] at he
    simp only [List.mem_cons] at he
    rcases he with rfl | rfl | he
    · exact Or.inl ⟨_, _, _, rfl⟩
    · exact Or.inr ⟨_, _, rfl⟩
    · exact ih e he
  | case2 i hge =>
    intro e he
    rw [verifyKey, if_neg hge] at he
    simp at he


theorem fallbackKey_clear : fallbackKey.clear = { bytes := List.replicate 2048 0, used := 0 } := by
  simp only [fallbackKey, SecretKey.filled, SecretKey.clear, List.length_replicate]

theorem provisionKey_success (r : EntropyResult) (hs : r.status = 0)
    (hbuf : r.buf.length = 2048) :
    provisionKey r = some { bytes := r.buf, used := 2048 } := by
  have h1 : List.take 2048 r.buf = r.buf := by
    rw [← hbuf]; exact List.take_length _
  have h2 : List.drop 2048 (List.replicate 2048 0) = [] :=
    List.drop_eq_nil_of_le (by rw [List.length_replicate])
  have hc : 0 + 2048 ≤ (List.replicate 2048 0).length ∧ 0 + 2048 ≤ r.buf.length
      ∧ 0 + 2048 ≤ (List.replicate 2048 0).length := by
    rw [List.length_replicate, hbuf]; omega
  simp only [provisionKey, hs, if_true, fallbackKey_clear, SecretKey.append, if_pos hc,
    List.take_zero, List.drop_zero, List.nil_append, Nat.zero_add, h1, h2, List.append_nil]

theorem provisionKey_failure (r : EntropyResult) (hs : r.status ≠ 0) :
    provisionKey r = some fallbackKey := by
  have : ¬ (0 = r.status) := fun h => hs h.symm
  simp only [provisionKey, if_neg this]

theorem productionIdentity_shape (r : EntropyResult) (hbuf : r.buf.length = 2048) :
    ∃ sk front, provisionKey r = some sk ∧
      productionIdentity r = some (front ++ verifyKey sk 0
        ++ [Event.log "About to create Payload data supplier", Event.kSleep 2000,
            Event.makeSimpleSupplier 826 0 sk]) ∧
      saCalls front = [] ∧ supplierCtors front = [] := by
  have hsk : ∃ sk, provisionKey r = some sk := by
    by_cases hs : r.status = 0
    · exact ⟨_, provisionKey_success r hs hbuf⟩
    · exact ⟨_, provisionKey_failure r hs⟩
  obtain ⟨sk, hsk⟩ := hsk
  simp only [productionIdentity, hsk]
  exact ⟨sk, _, rfl, rfl, by simp [saCalls], by simp [supplierCtors]⟩

theorem saCalls_verifyKey (sk : SecretKey) (i : Nat) : saCalls (verifyKey sk i) = [] := by
  unfold saCalls
  rw [List.filter_eq_nil_iff]
  intro e he
  rcases verifyKey_events sk i e he with ⟨a, b, c, rfl⟩ | ⟨m, n, rfl⟩ <;> simp

theorem supplierCtors_verifyKey (sk : SecretKey) (i : Nat) :
    supplierCtors (verifyKey sk i) = [] := by
  unfold supplierCtors
  rw [List.filter_eq_nil_iff]
  intro e he
  rcases verifyKey_events sk i e he with ⟨a, b, c, rfl⟩ | ⟨m, n, rfl⟩ <;> simp

theorem supplierCtors_schedulerLoop (delay : Int) (nows : List Int) (s : LoopState)
    (tr : List (List Event)) (h : schedulerLoop delay s nows = some tr) :
    supplierCtors tr.flatten = [] := by
  unfold supplierCtors
  rw [List.filter_eq_nil_iff]
  intro e he
  rcases schedulerLoop_events delay nows s tr h e he with rfl | ⟨x, rfl⟩ | ⟨m, n, rfl⟩ <;> simp

theorem saCalls_schedulerLoop (delay : Int) (nows : List Int) (s : LoopState)
    (tr : List (List Event)) (h : schedulerLoop delay s nows = some tr) :
    ∀ e ∈ saCalls tr.flatten, ∃ x, e = Event.saIteration x := by
  intro e he
  unfold saCalls at he
  rw [List.mem_filter] at he
  obtain ⟨hmem, hp⟩ := he
  rcases schedulerLoop_events delay nows s tr h e hmem with rfl | ⟨x, rfl⟩ | ⟨m, n, rfl⟩
  · simp at hp
  · exact ⟨x, rfl⟩
  · simp at hp

theorem saCalls_append (a b : List Event) : saCalls (a ++ b) = saCalls a ++ saCalls b := by
  simp [saCalls]

theorem supplierCtors_append (a b : List Event) :
    supplierCtors (a ++ b) = supplierCtors a ++ supplierCtors b := by
  simp [supplierCtors]

/-- Shape of a defined run of `herald_entry`. -/
theorem herald_entry_shape (cfg : BuildConfig) (env : WorkerEnv)
    (hbuf : env.entropy.buf.length = 2048) (hlen : (env.nows.length : Int) ≤ INT_MAX) :
    ∃ tr ident passes, herald_entry cfg env = some tr ∧
      schedulerLoop 250 { iter := 0, last := env.start } env.nows = some passes ∧
      saCalls tr = Event.saConstruct :: Event.saAdd :: Event.saStart :: saCalls passes.flatten ∧
      supplierCtors tr = supplierCtors ident ∧
      (cfg.useTestPayload = true →
        ident = testIdentity cfg.cmakeDebug env.hwinfoStatus env.uniqueId) ∧
      (cfg.useTestPayload = false → productionIdentity env.entropy = some ident) ∧
      saCalls ident = [] := by
  obtain ⟨passes, hp, _⟩ := schedulerLoop_defined 250 env.nows { iter := 0, last := env.start }
    (by simpa using hlen)
  have hident : ∃ ident, (if cfg.useTestPayload = true then
        some (testIdentity cfg.cmakeDebug env.hwinfoStatus env.uniqueId)
      else productionIdentity env.entropy) = some ident ∧ saCalls ident = [] := by
    cases ht : cfg.useTestPayload
    · obtain ⟨sk, front, _, h2, h3, _⟩ := productionIdentity_shape env.entropy hbuf
      refine ⟨_, by simpa using h2, ?_⟩
      rw [saCalls_append, saCalls_append, h3, saCalls_verifyKey]
      simp [saCalls]
    · refine ⟨testIdentity cfg.cmakeDebug env.hwinfoStatus env.uniqueId, by simp, ?_⟩
      cases hd : cfg.cmakeDebug <;> simp [testIdentity, saCalls]
  obtain ⟨ident, hid, hsa⟩ := hident
  simp only [herald_entry, hid, hp]
  refine ⟨_, ident, passes, rfl, rfl, ?_, ?_, ?_, ?_, hsa⟩
  · rw [saCalls_append, saCalls_append, saCalls_append, hsa]
    simp [saCalls]
  · rw [supplierCtors_append, supplierCtors_append, supplierCtors_append,
      supplierCtors_schedulerLoop 250 env.nows _ passes hp]
    simp [supplierCtors]
  · intro ht
    simpa [ht] using hid.symm
  · intro ht
    simpa [ht] using hid


theorem keyReads_verifyKey (sk : SecretKey) (n : Nat) :
    ∀ i, i + 64 * n = 2048 →
      keyReads (verifyKey sk i)
        = (List.range n).map fun k => (i + 64 * k, 64, sk.subdata (i + 64 * k) 64) := by
  induction n with
  | zero =>
    intro i hi
    have : ¬ i < 2048 := by omega
    rw [verifyKey, if_neg this]
    simp [keyReads]
  | succ n ih =>
    intro i hi
    have hlt : i < 2048 := by omega
    rw [verifyKey, if_pos hlt, List.range_succ_eq_map]
    have := ih (i + 64) (by omega)
    unfold keyReads at this ⊢
    simp only [List.filterMap_cons, List.map_cons, List.map_map, Nat.mul_zero, Nat.add_zero]
    rw [this]
    congr 1
    apply List.map_congr_left
    intro k _
    have hk : i + 64 + 64 * k = i + 64 * (k + 1) := by omega
    simp only [Function.comp, Nat.succ_eq_add_one, hk]

theorem flatten_chunks (n : Nat) :
    ∀ l : List Nat, l.length = 64 * n →
      ((List.range n).map fun k => (l.drop (64 * k)).take 64).flatten = l := by
  induction n with
  | zero =>
    intro l hl
    have : l = [] := List.eq_nil_of_length_eq_zero (by omega)
    simp [this]
  | succ n ih =>
    intro l hl
    have h := ih (l.drop 64) (by rw [List.length_drop]; omega)
    rw [List.range_succ_eq_map]
    simp only [List.map_cons, List.map_map, List.flatten_cons, Nat.mul_zero, List.drop_zero]
    have hfun : ((fun k => List.take 64 (List.drop (64 * k) l)) ∘ Nat.succ)
        = fun k => List.take 64 (List.drop (64 * k) (List.drop 64 l)) := by
      funext k
      simp only [Function.comp, List.drop_drop, Nat.succ_eq_add_one]
      congr 2
      omega
    rw [hfun, h]
    exact List.take_append_drop 64 l


theorem supplierCtors_testIdentity (cmakeDebug : Bool) (st : Int) (u : Fin 8 → Nat) :
    supplierCtors (testIdentity cmakeDebug st u)
      = [Event.makeFixedSupplier 826 0 (testClientId (hwInfoAvailable cmakeDebug st) u)] := by
  cases cmakeDebug <;> simp [testIdentity, supplierCtors]

theorem supplierCtors_productionIdentity (r : EntropyResult) (hbuf : r.buf.length = 2048) :
    ∃ sk tr, provisionKey r = some sk ∧ productionIdentity r = some tr ∧
      supplierCtors tr = [Event.makeSimpleSupplier 826 0 sk] := by
  obtain ⟨sk, front, h1, h2, _, h4⟩ := productionIdentity_shape r hbuf
  refine ⟨sk, _, h1, h2, ?_⟩
  rw [supplierCtors_append, supplierCtors_append, h4, supplierCtors_verifyKey]
  simp [supplierCtors]

/-! ## Claims on identity provisioning -/

/-- C3 (code evaluated at the failing input): on a short read (status 0, 8
bytes written instead of 2048) `herald_entry` takes the success branch: the key
handed to the payload supplier is the content of the buffer, not the fallback
key, although the supplier is still constructed.  The sibling `cc3xx_init`
does test `olen` on the same outcome. -/
theorem C3_short_read_replaces_fallback :
    shortRead.status = 0 ∧ shortRead.olen ≠ 2048 ∧
    provisionKey shortRead = some { bytes := shortRead.buf, used := 2048 } ∧
    ({ bytes := shortRead.buf, used := 2048 } : SecretKey) ≠ fallbackKey ∧
    (∃ tr, productionIdentity shortRead = some tr ∧
      supplierCtors tr
        = [Event.makeSimpleSupplier 826 0 { bytes := shortRead.buf, used := 2048 }]) ∧
    Event.log "Didn't generate enough randomness for output" ∈ cc3xx_init 0 shortRead := by
  have hbuf : shortRead.buf.length = 2048 := by
    simp only [shortRead, List.length_append, List.length_replicate]
  have hkey := provisionKey_success shortRead rfl hbuf
  refine ⟨rfl, by decide, hkey, ?_, ?_, ?_⟩
  · intro h
    have hb := congrArg (fun k => k.bytes.head?) h
    have e1 : shortRead.buf = 165 :: (List.replicate 7 165 ++ List.replicate 2040 0) := rfl
    have e2 : fallbackKey.bytes = 0 :: List.replicate 2047 0 := rfl
    simp only [e1, e2, List.head?_cons] at hb
    exact absurd hb (by decide)
  · obtain ⟨sk, tr, h1, h2, h3⟩ := supplierCtors_productionIdentity shortRead hbuf
    rw [hkey] at h1
    cases h1
    exact ⟨tr, h2, h3⟩
  · have hst : shortRead.status = 0 := rfl
    have hol : shortRead.olen = 8 := rfl
    simp [cc3xx_init, hst, hol]

/-- C4: after a fully successful entropy read the verification loop makes
exactly 32 reads `sk.subdata(i, 64)` at `i = 0, 64, ..., 1984`; each satisfies
`i + 64 <= 2048` and returns its chunk (no bounds violation), and the chunks
concatenated in order are the 2048 bytes written by `clear()` then
`append(buf, 0, 2048)`.  The success branch is the one with status 0 and a
2048-byte buffer. -/
theorem C4_readback_chunks_reproduce_key (r : EntropyResult) (hs : r.status = 0)
    (hbuf : r.buf.length = 2048) :
    ∃ sk, fallbackKey.clear.append r.buf 0 2048 = some sk ∧ provisionKey r = some sk ∧
      sk.bytes = r.buf ∧
      keyReads (verifyKey sk 0)
        = (List.range 32).map (fun k => (64 * k, 64, some ((sk.bytes.drop (64 * k)).take 64))) ∧
      (∀ k < 32, 64 * k + 64 ≤ 2048) ∧
      ((List.range 32).map fun k => (sk.bytes.drop (64 * k)).take 64).flatten = r.buf := by
  have hkey := provisionKey_success r hs hbuf
  have happ : fallbackKey.clear.append r.buf 0 2048 = some { bytes := r.buf, used := 2048 } := by
    have : provisionKey r = fallbackKey.clear.append r.buf 0 2048 := by
      simp only [provisionKey, hs, if_true]
    rw [← this]; exact hkey
  refine ⟨_, happ, hkey, rfl, ?_, ?_, ?_⟩
  · rw [keyReads_verifyKey _ 32 0 (by omega)]
    apply List.map_congr_left
    intro k hk
    have hk' : k < 32 := List.mem_range.mp hk
    have hb : 64 * k + 64 ≤ r.buf.length := by omega
    simp only [Nat.zero_add, SecretKey.subdata, if_pos hb]
  · intro k hk
    omega
  · exact flatten_chunks 32 r.buf (by omega)

/-- Witness of C4: a full read of 2048 bytes, all equal to 7. -/
theorem C4_readback_chunks_reproduce_key_witness :
    ∃ sk, fallbackKey.clear.append sampleWorkerEnv.entropy.buf 0 2048 = some sk ∧
      provisionKey sampleWorkerEnv.entropy = some sk ∧
      sk.bytes = sampleWorkerEnv.entropy.buf ∧
      keyReads (verifyKey sk 0)
        = (List.range 32).map (fun k => (64 * k, 64, some ((sk.bytes.drop (64 * k)).take 64))) ∧
      (∀ k < 32, 64 * k + 64 ≤ 2048) ∧
      ((List.range 32).map fun k => (sk.bytes.drop (64 * k)).take 64).flatten
        = sampleWorkerEnv.entropy.buf :=
  C4_readback_chunks_reproduce_key sampleWorkerEnv.entropy rfl
    (by simp only [sampleWorkerEnv, List.length_replicate])


/-! ## Claims on the test identity -/

/-- C8: in the test identity path, when the hardware identifier is unavailable
(status not greater than 0, which is always so without `CMAKE_C_FLAGS_DEBUG`,
where the status is fixed at -1), the fixed payload supplier is constructed
with country code 826, state code 0 and the placeholder client identifier
1234567890. -/
theorem C8_placeholder_client_id (cfg : BuildConfig) (env : WorkerEnv)
    (htest : cfg.useTestPayload = true)
    (hunavail : ¬ hwInfoAvailable cfg.cmakeDebug env.hwinfoStatus > 0)
    (hlen : (env.nows.length : Int) ≤ INT_MAX) :
    (∀ st, hwInfoAvailable false st = -1) ∧
    testClientId (hwInfoAvailable cfg.cmakeDebug env.hwinfoStatus) env.uniqueId = 1234567890 ∧
    ∃ tr, herald_entry cfg env = some tr ∧
      supplierCtors tr = [Event.makeFixedSupplier 826 0 1234567890] := by
  have hid : testClientId (hwInfoAvailable cfg.cmakeDebug env.hwinfoStatus) env.uniqueId
      = 1234567890 := by
    simp only [testClientId, if_neg hunavail]
  refine ⟨fun st => rfl, hid, ?_⟩
  obtain ⟨passes, hp, _⟩ := schedulerLoop_defined 250 env.nows { iter := 0, last := env.start }
    (by simpa using hlen)
  simp only [herald_entry, htest, if_true, hp]
  refine ⟨_, rfl, ?_⟩
  rw [supplierCtors_append, supplierCtors_append, supplierCtors_append,
    supplierCtors_schedulerLoop 250 env.nows _ passes hp, supplierCtors_testIdentity, hid]
  simp [supplierCtors]

/-- Witness of C8: a build without `CMAKE_C_FLAGS_DEBUG`. -/
theorem C8_placeholder_client_id_witness :
    (∀ st, hwInfoAvailable false st = -1) ∧
    testClientId (hwInfoAvailable false sampleWorkerEnv.hwinfoStatus) sampleWorkerEnv.uniqueId
      = 1234567890 ∧
    ∃ tr, herald_entry
        { useTestPayload := true, cmakeDebug := false, useCC3xx := true, heraldDebug := false }
        sampleWorkerEnv = some tr ∧
      supplierCtors tr = [Event.makeFixedSupplier 826 0 1234567890] :=
  C8_placeholder_client_id
    { useTestPayload := true, cmakeDebug := false, useCC3xx := true, heraldDebug := false }
    sampleWorkerEnv rfl (by decide) (by decide)

/-- C7: in every execution of `herald_entry` the calls on the sensor array are
its construction, then `add`, then `start`, then only `iteration` calls: one
construction, one `add`, one `start` that precedes every `iteration`, nothing
else afterwards; and one payload supplier is constructed, once. -/
theorem C7_sensor_array_call_order (cfg : BuildConfig) (env : WorkerEnv)
    (hbuf : env.entropy.buf.length = 2048) (hlen : (env.nows.length : Int) ≤ INT_MAX) :
    ∃ tr its, herald_entry cfg env = some tr ∧
      saCalls tr = [Event.saConstruct, Event.saAdd, Event.saStart] ++ its ∧
      (∀ e ∈ its, ∃ x, e = Event.saIteration x) ∧
      (supplierCtors tr).length = 1 := by
  obtain ⟨tr, ident, passes, h1, h2, h3, h4, h5, h6, _⟩ := herald_entry_shape cfg env hbuf hlen
  refine ⟨tr, saCalls passes.flatten, h1, by rw [h3]; rfl,
    saCalls_schedulerLoop 250 env.nows _ passes h2, ?_⟩
  rw [h4]
  cases ht : cfg.useTestPayload
  · obtain ⟨sk, tr', _, hp, hs⟩ := supplierCtors_productionIdentity env.entropy hbuf
    have := h6 ht
    rw [hp] at this
    cases this
    rw [hs]; rfl
  · rw [h5 ht, supplierCtors_testIdentity]; rfl

/-- Witness of C7: a production build, full entropy read, 43 passes. -/
theorem C7_sensor_array_call_order_witness :
    ∃ tr its, herald_entry
        { useTestPayload := false, cmakeDebug := false, useCC3xx := true, heraldDebug := false }
        sampleWorkerEnv = some tr ∧
      saCalls tr = [Event.saConstruct, Event.saAdd, Event.saStart] ++ its ∧
      (∀ e ∈ its, ∃ x, e = Event.saIteration x) ∧
      (supplierCtors tr).length = 1 :=
  C7_sensor_array_call_order
    { useTestPayload := false, cmakeDebug := false, useCC3xx := true, heraldDebug := false }
    sampleWorkerEnv (by simp only [sampleWorkerEnv, List.length_replicate]) (by decide)

/-- C6: if hardware bring-up fails (no LED device, or `gpio_pin_configure`
returns a negative value) `main` returns without creating the worker thread
and without any pass of the LED loop; if both steps succeed, the worker thread
is created exactly once, before the LED loop starts. -/
theorem C6_worker_only_after_bringup (cfg : BuildConfig) (env : MainEnv) :
    ((env.devBound = false ∨ env.ret < 0) →
      threadCreateCalls (main cfg env) = 0 ∧ ledUpdates (main cfg env) = 0) ∧
    ((env.devBound = true ∧ 0 ≤ env.ret) →
      threadCreateCalls (main cfg env) = 1 ∧
      ∃ boot, main cfg env = boot ++ heartbeat cfg true env.passes ∧
        threadCreateCalls boot = 1 ∧ ledUpdates boot = 0 ∧
        threadCreateCalls (heartbeat cfg true env.passes) = 0 ∧
        ledUpdates (heartbeat cfg true env.passes) = env.passes) := by
  have hq := cc3xx_init_quiet env.initStatus env.bootEntropy
  have hb1 := threadCreateCalls_heartbeat cfg env.passes true
  have hb2 := ledUpdates_heartbeat cfg env.passes true
  unfold threadCreateCalls at hq hb1
  unfold ledUpdates at hq hb2
  constructor
  · rintro (h | h)
    · simp [main, h, threadCreateCalls, ledUpdates]
    · cases hd : env.devBound <;> simp [main, h, hd, threadCreateCalls, ledUpdates]
  · rintro ⟨hd, hr⟩
    have hr' : ¬ env.ret < 0 := by omega
    constructor
    · cases hc : cfg.useCC3xx <;>
        simp [main, hd, hr', hc, threadCreateCalls, List.filter_append, hq.1, hb1]
    · refine ⟨[Event.threadNameSet "MAIN", Event.deviceGetBinding, Event.gpioPinConfigure,
          Event.log "--------------------------------", Event.log "APP START",
          Event.log "--------------------------------"]
          ++ (if cfg.useCC3xx then cc3xx_init env.initStatus env.bootEntropy else [])
          ++ [Event.log "Starting herald with stack size %d",
              Event.threadCreate, Event.threadNameSet "HERALD"], ?_, ?_, ?_, ?_, ?_⟩
      · simp [main, hd, hr']
      · cases hc : cfg.useCC3xx <;>
          simp [hc, threadCreateCalls, List.filter_append, hq.1]
      · cases hc : cfg.useCC3xx <;>
          simp [hc, ledUpdates, List.filter_append, hq.2]
      · exact threadCreateCalls_heartbeat cfg env.passes true
      · exact ledUpdates_heartbeat cfg env.passes true

/-- Witness of C6: a boot without LED device, and a boot where both steps
succeed, observed for 3 passes of the LED loop. -/
theorem C6_worker_only_after_bringup_witness :
    (threadCreateCalls (main
        { useTestPayload := false, cmakeDebug := false, useCC3xx := true, heraldDebug := false }
        { devBound := false, ret := 0, initStatus := 0, bootEntropy := shortRead, passes := 3 })
        = 0 ∧
      ledUpdates (main
        { useTestPayload := false, cmakeDebug := false, useCC3xx := true, heraldDebug := false }
        { devBound := false, ret := 0, initStatus := 0, bootEntropy := shortRead, passes := 3 })
        = 0) ∧
    threadCreateCalls (main
        { useTestPayload := false, cmakeDebug := false, useCC3xx := true, heraldDebug := false }
        { devBound := true, ret := 0, initStatus := 0, bootEntropy := shortRead, passes := 3 })
        = 1 :=
  ⟨(C6_worker_only_after_bringup _ _).1 (Or.inl rfl),
   ((C6_worker_only_after_bringup _ _).2 ⟨rfl, by decide⟩).1⟩

end Herald
